import Mathlib

/-
Shallow embedding of the Smart Classroom Scheduler booking logic.

Sources embedded:
  * shared/schema.ts        - entity shapes and the insert-schema refinement
    (endTime strictly after startTime, compared as minutes since midnight).
  * server/storage.ts       - MemStorage: in-memory maps for users, rooms and
    bookings, with createRoom, getBookings (filter + join + sort), getBooking,
    createBooking and updateBooking.
  * server/routes.ts        - the Express handlers for POST /api/rooms,
    POST /api/bookings (with the hasConflict gate), PUT /api/bookings/:id and
    DELETE /api/bookings/:id.

Modelling conventions:
  * Times of day ("HH:MM", zero padded) are modelled as minutes since
    midnight (Nat); lexicographic order on zero-padded "HH:MM" strings agrees
    with numeric order on minutes, which is also how the schema refinement
    itself compares them (split on the colon, then Number).
  * Dates ("YYYY-MM-DD") are modelled as Nat with the same order as the
    lexicographic order on well-formed date strings.
  * randomUUID identifiers are modelled by a fresh-counter (nextId); the only
    property the code relies on is freshness of generated ids.
  * A JS Map is modelled as a list of entries in insertion order; Map.set on
    a fresh key appends a new entry (modelled by cons, order is only observed
    through the final sort of getBookings), Map.set on an existing key
    replaces the entry in place (modelled by List.map).
  * createdAt timestamps are omitted: no embedded operation reads them.
  * The stable Array.prototype.sort of getBookings (ascending by the
    timestamp of date + startTime) is modelled by a stable insertion sort on
    the key (date, startTime).
  * Authentication is modelled by passing the acting user explicitly; the
    routes embedded here are only entered with an authenticated actor.
-/

set_option linter.unusedVariables false

namespace Scheduler

/-- Role enum of the users table in shared/schema.ts. -/
inductive Role where
  | student
  | faculty
  | admin
deriving DecidableEq

/-- Status enum of the bookings table in shared/schema.ts. -/
inductive Status where
  | pending
  | confirmed
  | cancelled
deriving DecidableEq

/-- A row of the users table (createdAt omitted, see header). -/
structure User where
  id : Nat
  username : String
  email : String
  password : String
  name : String
  role : Role
deriving DecidableEq

/-- A row of the rooms table. -/
structure Room where
  id : Nat
  name : String
  capacity : Nat
deriving DecidableEq

/-- A row of the bookings table. -/
structure Booking where
  id : Nat
  roomId : Nat
  facultyId : Nat
  courseName : String
  date : Nat
  startTime : Nat
  endTime : Nat
  expectedAttendance : Option Int
  specialRequirements : Option String
  status : Status
deriving DecidableEq

/-- InsertRoom: insertRoomSchema output (id and createdAt omitted). -/
structure InsertRoom where
  name : String
  capacity : Nat
deriving DecidableEq

/-- InsertBooking: insertBookingSchema output (id and createdAt omitted).
status is optional because the bookings table declares a default for it, so
drizzle-zod makes the field optional in the insert schema; a client-supplied
value is kept. expectedAttendance and specialRequirements are nullable. -/
structure InsertBooking where
  roomId : Nat
  facultyId : Nat
  courseName : String
  date : Nat
  startTime : Nat
  endTime : Nat
  expectedAttendance : Option Int := none
  specialRequirements : Option String := none
  status : Option Status := none
deriving DecidableEq

/-- The reduced projection of the owning user that getBookings and getBooking
attach to a booking: id, name and email only. -/
structure FacultyProjection where
  id : Nat
  name : String
  email : String
deriving DecidableEq

/-- BookingWithDetails of shared/schema.ts: a booking enriched with its room
and the reduced faculty projection (the TS type spreads the booking fields;
here the booking is kept as a nested field). -/
structure BookingWithDetails where
  booking : Booking
  room : Room
  faculty : FacultyProjection
deriving DecidableEq

/-- The optional filters accepted by MemStorage.getBookings. -/
structure BookingFilters where
  roomId : Option Nat := none
  facultyId : Option Nat := none
  status : Option Status := none
  dateFrom : Option Nat := none
  dateTo : Option Nat := none
deriving DecidableEq

/-- The MemStorage state: the three entity maps plus the fresh-id counter
that models randomUUID generation. -/
structure MemStorage where
  users : List User
  rooms : List Room
  bookings : List Booking
  nextId : Nat
deriving DecidableEq

/-- this.rooms.get(roomId): lookup of a room by id. -/
def findRoom (s : MemStorage) (id : Nat) : Option Room :=
  s.rooms.find? (fun r => decide (r.id = id))

/-- this.users.get(facultyId): lookup of a user by id. -/
def findUser (s : MemStorage) (id : Nat) : Option User :=
  s.users.find? (fun u => decide (u.id = id))

/-- The reduced owning-user projection built by getBookings and getBooking:
only id, name and email are copied out of the user record. -/
def projectUser (u : User) : FacultyProjection :=
  { id := u.id, name := u.name, email := u.email }

/-- The join step of getBookings and getBooking: a booking is enriched with
its room and the reduced faculty projection, and dropped when either the
room or the faculty user is absent from the store. -/
def joinBooking (s : MemStorage) (b : Booking) : Option BookingWithDetails :=
  match findRoom s b.roomId, findUser s b.facultyId with
  | some room, some fac => some { booking := b, room := room, faculty := projectUser fac }
  | _, _ => none

/-- The filter chain of MemStorage.getBookings: each supplied filter is
applied in turn (AND semantics). -/
def applyFilters (f : BookingFilters) (bs : List Booking) : List Booking :=
  let bs1 := match f.roomId with
    | some rid => bs.filter (fun b => decide (b.roomId = rid))
    | none => bs
  let bs2 := match f.facultyId with
    | some fid => bs1.filter (fun b => decide (b.facultyId = fid))
    | none => bs1
  let bs3 := match f.status with
    | some st => bs2.filter (fun b => decide (b.status = st))
    | none => bs2
  let bs4 := match f.dateFrom with
    | some d => bs3.filter (fun b => decide (d ≤ b.date))
    | none => bs3
  match f.dateTo with
  | some d => bs4.filter (fun b => decide (b.date ≤ d))
  | none => bs4

/-- The sort order of getBookings: ascending by the timestamp parsed from
date + " " + startTime, i.e. lexicographically by (date, startTime). -/
def sortLe (a b : BookingWithDetails) : Bool :=
  decide (a.booking.date < b.booking.date) ||
    (decide (a.booking.date = b.booking.date) &&
      decide (a.booking.startTime ≤ b.booking.startTime))

/-- One insertion step of the stable insertion sort modelling the final
Array.prototype.sort of getBookings. -/
def insertByKey (x : BookingWithDetails) : List BookingWithDetails → List BookingWithDetails
  | [] => [x]
  | y :: ys => if sortLe x y then x :: y :: ys else y :: insertByKey x ys

/-- The stable sort modelling Array.prototype.sort with the comparator of
getBookings. -/
def sortBookings : List BookingWithDetails → List BookingWithDetails
  | [] => []
  | x :: xs => insertByKey x (sortBookings xs)

/-- MemStorage.getBookings: filter, join each surviving booking with its room
and owning user (dropping bookings whose room or user is absent), then sort
ascending by (date, startTime). -/
def MemStorage.getBookings (s : MemStorage) (f : BookingFilters) : List BookingWithDetails :=
  sortBookings ((applyFilters f s.bookings).filterMap (joinBooking s))

/-- MemStorage.getBooking: lookup by id, then the same join; undefined when
the booking, its room or its owning user is absent. -/
def MemStorage.getBooking (s : MemStorage) (id : Nat) : Option BookingWithDetails :=
  match s.bookings.find? (fun b => decide (b.id = id)) with
  | none => none
  | some b => joinBooking s b

/-- MemStorage.createRoom: a fresh id is generated and the room is stored.
No uniqueness check of any kind is performed on the name. -/
def MemStorage.createRoom (s : MemStorage) (r : InsertRoom) : MemStorage × Room :=
  let room : Room := { id := s.nextId, name := r.name, capacity := r.capacity }
  ({ s with rooms := room :: s.rooms, nextId := s.nextId + 1 }, room)

/-- MemStorage.createBooking: a fresh id is generated, the status defaults to
pending only when the insert payload carries none, and the booking is stored.
No referential check is performed on roomId or facultyId. -/
def MemStorage.createBooking (s : MemStorage) (ib : InsertBooking) : MemStorage × Booking :=
  let b : Booking :=
    { id := s.nextId
      roomId := ib.roomId
      facultyId := ib.facultyId
      courseName := ib.courseName
      date := ib.date
      startTime := ib.startTime
      endTime := ib.endTime
      expectedAttendance := ib.expectedAttendance
      specialRequirements := ib.specialRequirements
      status := ib.status.getD Status.pending }
  ({ s with bookings := b :: s.bookings, nextId := s.nextId + 1 }, b)

/-- The parsed body of PUT /api/bookings/:id: every insert field optional. -/
structure BookingUpdate where
  roomId : Option Nat := none
  facultyId : Option Nat := none
  courseName : Option String := none
  date : Option Nat := none
  startTime : Option Nat := none
  endTime : Option Nat := none
  expectedAttendance : Option (Option Int) := none
  specialRequirements : Option (Option String) := none
  status : Option Status := none
deriving DecidableEq

/-- The spread-merge of MemStorage.updateBooking: supplied fields replace the
stored ones, absent fields are left untouched. -/
def Booking.applyUpdate (b : Booking) (u : BookingUpdate) : Booking :=
  { id := b.id
    roomId := u.roomId.getD b.roomId
    facultyId := u.facultyId.getD b.facultyId
    courseName := u.courseName.getD b.courseName
    date := u.date.getD b.date
    startTime := u.startTime.getD b.startTime
    endTime := u.endTime.getD b.endTime
    expectedAttendance := u.expectedAttendance.getD b.expectedAttendance
    specialRequirements := u.specialRequirements.getD b.specialRequirements
    status := u.status.getD b.status }

/-- MemStorage.updateBooking: undefined when the id is absent; otherwise the
merged booking replaces the stored entry (Map.set on the existing key) and is
returned. No other entry is touched. -/
def MemStorage.updateBooking (s : MemStorage) (id : Nat) (u : BookingUpdate) :
    Option (MemStorage × Booking) :=
  match s.bookings.find? (fun b => decide (b.id = id)) with
  | none => none
  | some b =>
    let b' := b.applyUpdate u
    some ({ s with bookings := s.bookings.map (fun x => if x.id = id then b' else x) }, b')

/-- The typed error outcomes of the embedded route handlers, matching the
status codes the routes return: 400 validation, 403 authorization,
404 not found, 409 conflict. -/
inductive ApiError where
  | validation
  | authz
  | notFound
  | conflictErr
deriving DecidableEq

/-- The body of POST /api/bookings after shape validation: the required
insert fields, a client-supplied facultyId that the handler overwrites, and
the optional fields of the insert schema. -/
structure RawBookingPayload where
  roomId : Nat
  facultyId : Option Nat := none
  courseName : String
  date : Nat
  startTime : Nat
  endTime : Nat
  expectedAttendance : Option Int := none
  specialRequirements : Option String := none
  status : Option Status := none
deriving DecidableEq

/-- The three-clause overlap test inlined in the hasConflict gate of
POST /api/bookings (arguments: newStart newEnd existingStart existingEnd). -/
def conflictCheck (newStart newEnd existingStart existingEnd : Nat) : Bool :=
  (decide (existingStart ≤ newStart) && decide (newStart < existingEnd)) ||
    (decide (existingStart < newEnd) && decide (newEnd ≤ existingEnd)) ||
    (decide (newStart ≤ existingStart) && decide (existingEnd ≤ newEnd))

/-- POST /api/bookings: faculty only; facultyId is overwritten with the id of
the acting user before parsing; the insert-schema refinement rejects
endTime ≤ startTime; the hasConflict gate fetches the bookings of the same
room and date and rejects on any non-cancelled three-clause overlap;
otherwise the booking is created. -/
def postBooking (s : MemStorage) (actor : User) (p : RawBookingPayload) :
    Except ApiError (MemStorage × Booking) :=
  if actor.role ≠ Role.faculty then .error .authz
  else
    let ib : InsertBooking :=
      { roomId := p.roomId
        facultyId := actor.id
        courseName := p.courseName
        date := p.date
        startTime := p.startTime
        endTime := p.endTime
        expectedAttendance := p.expectedAttendance
        specialRequirements := p.specialRequirements
        status := p.status }
    if ¬ ib.startTime < ib.endTime then .error .validation
    else
      let existing := s.getBookings
        { roomId := some ib.roomId, dateFrom := some ib.date, dateTo := some ib.date }
      let hasConflict := existing.any (fun e =>
        if e.booking.status = Status.cancelled then false
        else conflictCheck ib.startTime ib.endTime e.booking.startTime e.booking.endTime)
      if hasConflict then .error .conflictErr
      else .ok (s.createBooking ib)

/-- The refinement of the insert schema applied to an all-optional update
body: checked only when both startTime and endTime are supplied. -/
def updateRefineOk (u : BookingUpdate) : Bool :=
  match u.startTime, u.endTime with
  | some st, some et => decide (st < et)
  | _, _ => true

/-- PUT /api/bookings/:id: 404 unless getBooking finds the booking (with its
room and owner); faculty may edit only their own, admin any; the parsed
update drops facultyId for non-admin actors; the merged booking is stored.
No conflict check and no status-transition guard is performed. -/
def putBooking (s : MemStorage) (actor : User) (id : Nat) (u : BookingUpdate) :
    Except ApiError (MemStorage × Booking) :=
  match s.getBooking id with
  | none => .error .notFound
  | some bd =>
    if actor.role ≠ Role.admin ∧ bd.booking.facultyId ≠ actor.id then .error .authz
    else if ¬ updateRefineOk u then .error .validation
    else
      let u' := if actor.role ≠ Role.admin then { u with facultyId := none } else u
      match s.updateBooking id u' with
      | none => .error .notFound
      | some r => .ok r

/-- DELETE /api/bookings/:id: 404 unless getBooking finds the booking;
faculty may cancel only their own, admin any; instead of deleting, the
handler stores the booking with status set to cancelled via updateBooking. -/
def deleteBookingRoute (s : MemStorage) (actor : User) (id : Nat) :
    Except ApiError MemStorage :=
  match s.getBooking id with
  | none => .error .notFound
  | some bd =>
    if actor.role ≠ Role.admin ∧ bd.booking.facultyId ≠ actor.id then .error .authz
    else
      match s.updateBooking id { status := some Status.cancelled } with
      | none => .error .notFound
      | some (s', _) => .ok s'

/-- POST /api/rooms: admin only; the parsed room is created with no
uniqueness check on the name. -/
def postRoom (s : MemStorage) (actor : User) (r : InsertRoom) :
    Except ApiError (MemStorage × Room) :=
  if actor.role ≠ Role.admin then .error .authz
  else .ok (s.createRoom r)

/-- A booking operation of the kind quantified over by the no-overlap
invariant: a creation via POST /api/bookings or an update via
PUT /api/bookings/:id. -/
inductive Op where
  | post (actor : User) (p : RawBookingPayload)
  | put (actor : User) (id : Nat) (u : BookingUpdate)

/-- Run one operation; none when the route rejects it. -/
def applyOp (s : MemStorage) : Op → Option MemStorage
  | .post a p => ((postBooking s a p).toOption).map Prod.fst
  | .put a id u => ((putBooking s a id u).toOption).map Prod.fst

/-- Run a sequence of operations; some final state only when every operation
in the sequence is accepted. -/
def runOps (s : MemStorage) : List Op → Option MemStorage
  | [] => some s
  | op :: ops => (applyOp s op).bind (fun s' => runOps s' ops)

/-- The disjointness formulation of interval overlap used by the spec:
a.start < b.end and a.end > b.start. -/
def overlaps (aStart aEnd bStart bEnd : Nat) : Bool :=
  decide (aStart < bEnd) && decide (bStart < aEnd)

/-- Two bookings violate the no-overlap invariant when they are on the same
room and date, neither is cancelled, and their intervals overlap. -/
def conflictingPair (a b : Booking) : Bool :=
  decide (a.roomId = b.roomId) && decide (a.date = b.date) &&
    !(decide (a.status = Status.cancelled)) && !(decide (b.status = Status.cancelled)) &&
    overlaps a.startTime a.endTime b.startTime b.endTime

/-- No two distinct stored bookings (by position) violate the no-overlap
invariant. -/
def noOverlapList : List Booking → Bool
  | [] => true
  | b :: rest => rest.all (fun x => !(conflictingPair b x)) && noOverlapList rest

/-- The no-overlap invariant of a store state. -/
def noOverlap (s : MemStorage) : Bool :=
  noOverlapList s.bookings

/-- Every stored booking references a room and a user present in the store
(the references the getBookings join resolves). -/
def RefsOk (s : MemStorage) : Prop :=
  ∀ b ∈ s.bookings, (findRoom s b.roomId).isSome ∧ (findUser s b.facultyId).isSome

instance (s : MemStorage) : Decidable (RefsOk s) :=
  inferInstanceAs
    (Decidable (∀ b ∈ s.bookings, (findRoom s b.roomId).isSome ∧ (findUser s b.facultyId).isSome))

/-- A booking operation that is a creation whose referenced room exists and
whose acting user is stored (an authenticated faculty member). -/
def IsSafePost (s0 : MemStorage) : Op → Prop
  | .post a p => (findRoom s0 p.roomId).isSome = true ∧ (findUser s0 a.id).isSome = true
  | .put _ _ _ => False

instance (s0 : MemStorage) : (op : Op) → Decidable (IsSafePost s0 op)
  | .post a p =>
    inferInstanceAs (Decidable ((findRoom s0 p.roomId).isSome = true ∧ (findUser s0 a.id).isSome = true))
  | .put _ _ _ => inferInstanceAs (Decidable False)

/-! ### Concrete fixtures used by counterexamples and witnesses -/

/-- A stored faculty user. -/
def facU : User :=
  { id := 1, username := "fac", email := "fac@u.edu", password := "hashed-secret",
    name := "Fac One", role := Role.faculty }

/-- A stored admin user. -/
def adminU : User :=
  { id := 2, username := "adm", email := "adm@u.edu", password := "hashed-admin",
    name := "Admin Two", role := Role.admin }

/-- A stored room. -/
def roomA : Room := { id := 3, name := "Room A101", capacity := 30 }

/-- A small store: one faculty user, one room, no bookings. -/
def initC1 : MemStorage := { users := [facU], rooms := [roomA], bookings := [], nextId := 10 }

/-- A creation payload for a roomId (99) that no stored room carries. -/
def payloadDangling (st et : Nat) : RawBookingPayload :=
  { roomId := 99, courseName := "CS101", date := 20240110, startTime := st, endTime := et }

/-- A creation payload for the stored room. -/
def payloadRoomA (st et : Nat) : RawBookingPayload :=
  { roomId := 3, courseName := "CS101", date := 20240110, startTime := st, endTime := et }

/-- Two creations on the same (dangling) roomId and date with overlapping
intervals [540, 600) and [570, 630). -/
def opsC1a : List Op :=
  [Op.post facU (payloadDangling 540 600), Op.post facU (payloadDangling 570 630)]

/-- Two disjoint creations on the stored room, then an update moving the
start of the second booking (id 11) into the first interval. -/
def opsC1b : List Op :=
  [Op.post facU (payloadRoomA 540 600), Op.post facU (payloadRoomA 600 660),
    Op.put facU 11 { startTime := some 570 }]

/-- Two disjoint creations on the stored room. -/
def opsC1w : List Op :=
  [Op.post facU (payloadRoomA 540 600), Op.post facU (payloadRoomA 600 660)]

/-! ### Helper lemmas -/

theorem mem_insertByKey (x y : BookingWithDetails) (l : List BookingWithDetails) :
    x ∈ insertByKey y l ↔ x = y ∨ x ∈ l := by
  induction l with
  | nil => simp [insertByKey]
  | cons z zs ih =>
    simp only [insertByKey]
    split
    · simp
    · simp only [List.mem_cons, ih]
      tauto

theorem mem_sortBookings (x : BookingWithDetails) (l : List BookingWithDetails) :
    x ∈ sortBookings l ↔ x ∈ l := by
  induction l with
  | nil => simp [sortBookings]
  | cons z zs ih => simp [sortBookings, mem_insertByKey, ih]

/-- The single disjointness inequality implies the three-clause test, with no
assumption on the wellformedness of either interval. -/
theorem conflictCheck_of_overlaps (ns ne es ee : Nat)
    (h : overlaps ns ne es ee = true) : conflictCheck ns ne es ee = true := by
  simp only [overlaps, Bool.and_eq_true, decide_eq_true_eq] at h
  simp only [conflictCheck, Bool.or_eq_true, Bool.and_eq_true, decide_eq_true_eq]
  omega

theorem findRoom_eq_of_rooms_eq (s s' : MemStorage) (h : s'.rooms = s.rooms) (id : Nat) :
    findRoom s' id = findRoom s id := by
  unfold findRoom
  rw [h]

theorem findUser_eq_of_users_eq (s s' : MemStorage) (h : s'.users = s.users) (id : Nat) :
    findUser s' id = findUser s id := by
  unfold findUser
  rw [h]

/-- Unpacking a successful getBooking: the stored booking is the first entry
with the requested id, its room resolves to the attached room, and its owner
resolves to a stored user of which only id, name and email are kept. -/
theorem getBooking_inv (s : MemStorage) (id : Nat) (bd : BookingWithDetails)
    (h : s.getBooking id = some bd) :
    s.bookings.find? (fun b => decide (b.id = id)) = some bd.booking ∧
      findRoom s bd.booking.roomId = some bd.room ∧
      ∃ u, findUser s bd.booking.facultyId = some u ∧ bd.faculty = projectUser u := by
  unfold MemStorage.getBooking at h
  cases hf : s.bookings.find? (fun b => decide (b.id = id)) with
  | none => rw [hf] at h; exact absurd h (by simp)
  | some b =>
    rw [hf] at h
    have h' : joinBooking s b = some bd := h
    unfold joinBooking at h'
    cases hr : findRoom s b.roomId with
    | none => rw [hr] at h'; exact absurd h' (by simp)
    | some room =>
      cases hu : findUser s b.facultyId with
      | none => rw [hr, hu] at h'; exact absurd h' (by simp)
      | some u =>
        rw [hr, hu] at h'
        simp only [Option.some.injEq] at h'
        subst h'
        dsimp only
        exact ⟨rfl, hr, u, hu, rfl⟩

/-- The conjunction of the supplied filters as a single predicate. -/
def passB (f : BookingFilters) (b : Booking) : Bool :=
  (match f.roomId with | some rid => decide (b.roomId = rid) | none => true) &&
    (match f.facultyId with | some v => decide (b.facultyId = v) | none => true) &&
    (match f.status with | some v => decide (b.status = v) | none => true) &&
    (match f.dateFrom with | some d => decide (d ≤ b.date) | none => true) &&
    (match f.dateTo with | some d => decide (b.date ≤ d) | none => true)

/-- The filter chain is one filter by the conjunction of the supplied
filters. -/
theorem applyFilters_eq (f : BookingFilters) (bs : List Booking) :
    applyFilters f bs = bs.filter (passB f) := by
  unfold applyFilters passB
  rcases f with ⟨r, fid, st, df, dt⟩
  cases r <;> cases fid <;> cases st <;> cases df <;> cases dt <;>
    simp [List.filter_filter] <;>
    (congr 1; funext a; simp [Bool.and_comm, Bool.and_left_comm, Bool.and_assoc])

/-- The filter chain keeps the head exactly when it passes every supplied
filter. -/
theorem applyFilters_cons_eq (f : BookingFilters) (b : Booking) (bs : List Booking) :
    applyFilters f (b :: bs) =
      if passB f b then b :: applyFilters f bs else applyFilters f bs := by
  rw [applyFilters_eq, applyFilters_eq, List.filter_cons]

theorem mem_applyFilters (f : BookingFilters) (bs : List Booking) (e : Booking)
    (he : e ∈ bs) (hp : passB f e = true) : e ∈ applyFilters f bs := by
  induction bs with
  | nil => cases he
  | cons b rest ih =>
    rw [applyFilters_cons_eq]
    rcases List.mem_cons.mp he with rfl | hmem
    · rw [if_pos hp]
      exact List.mem_cons_self _ _
    · split
      · exact List.mem_cons_of_mem _ (ih hmem)
      · exact ih hmem

/-- A stored booking that passes the supplied filters and whose join
succeeds appears in the getBookings result. -/
theorem mem_getBookings_of (s : MemStorage) (f : BookingFilters)
    (e : Booking) (bd : BookingWithDetails)
    (he : e ∈ s.bookings) (hj : joinBooking s e = some bd)
    (hp : passB f e = true) :
    bd ∈ s.getBookings f := by
  unfold MemStorage.getBookings
  rw [mem_sortBookings]
  exact List.mem_filterMap.mpr ⟨e, mem_applyFilters f _ e he hp, hj⟩

theorem joinBooking_eq_some (s : MemStorage) (x : Booking) (room : Room) (u : User)
    (hr : findRoom s x.roomId = some room) (hu : findUser s x.facultyId = some u) :
    joinBooking s x = some { booking := x, room := room, faculty := projectUser u } := by
  unfold joinBooking
  rw [hr, hu]

/-- An accepted creation preserves the no-overlap invariant and the
referential health of the store, and leaves rooms and users untouched,
provided the created booking references a stored room and a stored user. -/
theorem post_preserves (s s' : MemStorage) (a : User) (p : RawBookingPayload) (b : Booking)
    (hroomP : (findRoom s p.roomId).isSome = true)
    (huserP : (findUser s a.id).isSome = true)
    (hno : noOverlap s = true) (hrefs : RefsOk s)
    (hok : postBooking s a p = Except.ok (s', b)) :
    noOverlap s' = true ∧ RefsOk s' ∧ s'.rooms = s.rooms ∧ s'.users = s.users := by
  simp only [postBooking] at hok
  split at hok
  · exact absurd hok (by simp)
  split at hok
  · exact absurd hok (by simp)
  split at hok
  · exact absurd hok (by simp)
  case isFalse hrole htime hgate =>
    rw [Except.ok.injEq] at hok
    simp only [MemStorage.createBooking, Prod.mk.injEq] at hok
    obtain ⟨hs', hb⟩ := hok
    subst hs'
    subst hb
    refine ⟨?_, ?_, rfl, rfl⟩
    · simp only [noOverlap] at hno ⊢
      simp only [noOverlapList, Bool.and_eq_true, List.all_eq_true]
      refine ⟨fun x hx => ?_, hno⟩
      rw [Bool.not_eq_true']
      by_contra hcp
      rw [Bool.not_eq_false] at hcp
      simp only [conflictingPair, Bool.and_eq_true, decide_eq_true_eq,
        Bool.not_eq_true', decide_eq_false_iff_not] at hcp
      obtain ⟨⟨⟨⟨hroomEq, hdateEq⟩, hnbst⟩, hxst⟩, hov⟩ := hcp
      obtain ⟨room, hr⟩ := Option.isSome_iff_exists.mp (hrefs x hx).1
      obtain ⟨u, hu⟩ := Option.isSome_iff_exists.mp (hrefs x hx).2
      have hj := joinBooking_eq_some s x room u hr hu
      have hpass : passB
          { roomId := some p.roomId, dateFrom := some p.date, dateTo := some p.date } x = true := by
        simp [passB, ← hroomEq, ← hdateEq]
      have hmem := mem_getBookings_of s
        { roomId := some p.roomId, dateFrom := some p.date, dateTo := some p.date } x _ hx hj hpass
      apply hgate
      refine List.any_eq_true.mpr ⟨_, hmem, ?_⟩
      show (if x.status = Status.cancelled then false
        else conflictCheck p.startTime p.endTime x.startTime x.endTime) = true
      rw [if_neg hxst]
      exact conflictCheck_of_overlaps _ _ _ _ hov
    · intro y hy
      rcases List.mem_cons.mp hy with rfl | hymem
      · exact ⟨hroomP, huserP⟩
      · exact hrefs y hymem

theorem isSafePost_congr (s0 s1 : MemStorage)
    (h1 : s1.rooms = s0.rooms) (h2 : s1.users = s0.users) (op : Op) :
    IsSafePost s0 op → IsSafePost s1 op := by
  cases op with
  | post a p =>
    intro h
    refine ⟨?_, ?_⟩
    · rw [findRoom_eq_of_rooms_eq s0 s1 h1]
      exact h.1
    · rw [findUser_eq_of_users_eq s0 s1 h2]
      exact h.2
  | put a i u => exact fun h => h

/-- Any accepted sequence of creations whose payloads reference stored rooms
and whose actors are stored users preserves the no-overlap invariant. -/
theorem runOps_posts_no_overlap (ops : List Op) (s0 s : MemStorage)
    (h0 : noOverlap s0 = true) (h0r : RefsOk s0)
    (hops : ∀ op ∈ ops, IsSafePost s0 op)
    (hrun : runOps s0 ops = some s) :
    noOverlap s = true := by
  induction ops generalizing s0 with
  | nil =>
    simp only [runOps, Option.some.injEq] at hrun
    exact hrun ▸ h0
  | cons op ops ih =>
    simp only [runOps] at hrun
    cases hop : applyOp s0 op with
    | none => rw [hop] at hrun; exact absurd hrun (by simp)
    | some s1 =>
      rw [hop] at hrun
      simp only [Option.some_bind] at hrun
      have hsafe := hops op (List.mem_cons_self op ops)
      cases op with
      | put a i u => exact absurd hsafe (fun h => h)
      | post a p =>
        simp only [applyOp] at hop
        cases hpb : postBooking s0 a p with
        | error e => rw [hpb] at hop; exact absurd hop (by simp [Except.toOption])
        | ok r =>
          obtain ⟨sr, br⟩ := r
          rw [hpb] at hop
          simp only [Except.toOption, Option.map_some', Option.some.injEq] at hop
          subst hop
          obtain ⟨hno1, hrefs1, hrooms, husers⟩ :=
            post_preserves s0 sr a p br hsafe.1 hsafe.2 h0 h0r hpb
          exact ih sr hno1 hrefs1
            (fun op' hm => isSafePost_congr s0 sr hrooms husers op'
              (hops op' (List.mem_cons_of_mem _ hm)))
            hrun

/-! ### Claims -/

/-- C1 (counterexample): the claim "after any sequence of accepted booking
operations (creations via POST /api/bookings and updates via
PUT /api/bookings/:id), no two distinct non-cancelled bookings on the same
room and date overlap" is false. Two accepted runs from a store with one
faculty user and one room end in a store whose bookings violate the
invariant: (a) two accepted creations for a roomId no stored room carries
(the conflict gate joins each fetched booking with its room, so bookings of
an absent room are invisible to it) yield the overlapping non-cancelled
bookings [540, 600) and [570, 630) on room 99 and one date; (b) two accepted
disjoint creations on the stored room followed by an accepted owner update
that moves the start of the second booking to 570 (the update path runs no
conflict check) yield the overlapping bookings [540, 600) and [570, 660). -/
theorem c1_overlap_counterexample :
    (runOps initC1 opsC1a).map noOverlap = some false ∧
      (runOps initC1 opsC1b).map noOverlap = some false := by
  constructor <;> decide

/-- C1 (amended): after any sequence of accepted booking creations
(POST /api/bookings) in which every payload references a room present in the
store and every acting user is present in the store, starting from a store
satisfying the invariant whose bookings all reference stored rooms and
users, no two distinct non-cancelled bookings on the same room and date
overlap. (Accepted updates, and accepted creations whose roomId no stored
room carries, can break the invariant, as the counterexample shows.) -/
theorem c1_no_overlap_of_safe_posts (ops : List Op) (s0 s : MemStorage)
    (h0 : noOverlap s0 = true) (h0r : RefsOk s0)
    (hops : ∀ op ∈ ops, IsSafePost s0 op)
    (hrun : runOps s0 ops = some s) :
    noOverlap s = true :=
  runOps_posts_no_overlap ops s0 s h0 h0r hops hrun

theorem c1_no_overlap_of_safe_posts_witness :
    noOverlap ((runOps initC1 opsC1w).getD initC1) = true :=
  c1_no_overlap_of_safe_posts opsC1w initC1 ((runOps initC1 opsC1w).getD initC1)
    (by decide) (by decide) (by decide) (by decide)

/-- C2: for intervals with start < end (times in minutes since midnight),
the three-clause test of the hasConflict gate returns true exactly when
candidate.start < existing.end and candidate.end > existing.start; in
particular intervals that only touch at a boundary do not conflict. -/
theorem c2_conflict_equiv (ns ne es ee : Nat) (h1 : ns < ne) (h2 : es < ee) :
    (conflictCheck ns ne es ee = true ↔ overlaps ns ne es ee = true) ∧
      (ne = es → conflictCheck ns ne es ee = false) ∧
      (ns = ee → conflictCheck ns ne es ee = false) := by
  refine ⟨?_, ?_, ?_⟩
  · simp only [conflictCheck, overlaps, Bool.or_eq_true, Bool.and_eq_true, decide_eq_true_eq]
    omega
  · intro h
    by_contra hne
    rw [Bool.not_eq_false] at hne
    simp only [conflictCheck, Bool.or_eq_true, Bool.and_eq_true, decide_eq_true_eq] at hne
    omega
  · intro h
    by_contra hne
    rw [Bool.not_eq_false] at hne
    simp only [conflictCheck, Bool.or_eq_true, Bool.and_eq_true, decide_eq_true_eq] at hne
    omega

theorem c2_conflict_equiv_witness :
    (conflictCheck 540 600 600 660 = true ↔ overlaps 540 600 600 660 = true) ∧
      (600 = 600 → conflictCheck 540 600 600 660 = false) ∧
      (540 = 660 → conflictCheck 540 600 600 660 = false) :=
  c2_conflict_equiv 540 600 600 660 (by decide) (by decide)

/-- A creation payload that supplies an explicit status of confirmed. -/
def payloadConfirmed : RawBookingPayload :=
  { roomId := 3, courseName := "CS101", date := 20240110, startTime := 540, endTime := 600,
    status := some Status.confirmed }

/-- C3 (counterexample): the claim "every accepted creation stores a booking
with status pending regardless of the payload" is false. The insert schema
only omits id and createdAt, so a payload may supply a status, and
createBooking keeps a supplied status (status || pending). A faculty
creation whose payload carries status confirmed is accepted and the stored
booking has status confirmed, not pending. -/
theorem c3_status_counterexample :
    ((postBooking initC1 facU payloadConfirmed).toOption.map (fun r => r.2.status)
      = some Status.confirmed) ∧ Status.confirmed ≠ Status.pending := by
  constructor <;> decide

/-- C3 (amended): for every accepted creation whose payload does not supply
a status, the stored booking has status pending (the default of
createBooking). -/
theorem c3_pending_when_status_absent (s : MemStorage) (actor : User) (p : RawBookingPayload)
    (s' : MemStorage) (b : Booking) (hst : p.status = none)
    (hok : postBooking s actor p = Except.ok (s', b)) :
    b.status = Status.pending := by
  simp only [postBooking] at hok
  split at hok
  · exact absurd hok (by simp)
  split at hok
  · exact absurd hok (by simp)
  split at hok
  · exact absurd hok (by simp)
  · rw [Except.ok.injEq] at hok
    simp only [MemStorage.createBooking, Prod.mk.injEq] at hok
    obtain ⟨hs', hb⟩ := hok
    rw [← hb]
    simp [hst]

/-- The booking stored by the witness creation below. -/
def bookingW : Booking :=
  { id := 10, roomId := 3, facultyId := 1, courseName := "CS101", date := 20240110,
    startTime := 540, endTime := 600, expectedAttendance := none,
    specialRequirements := none, status := Status.pending }

/-- The store after the witness creation below. -/
def stateW : MemStorage := { users := [facU], rooms := [roomA], bookings := [bookingW], nextId := 11 }

theorem c3_pending_when_status_absent_witness : bookingW.status = Status.pending :=
  c3_pending_when_status_absent initC1 facU (payloadRoomA 540 600) stateW bookingW rfl (by rfl)

/-- A stored booking that has been cancelled. -/
def bCancelled : Booking :=
  { id := 20, roomId := 3, facultyId := 1, courseName := "CS101", date := 20240110,
    startTime := 540, endTime := 600, expectedAttendance := none,
    specialRequirements := none, status := Status.cancelled }

/-- A store holding one cancelled booking owned by the faculty user. -/
def sC4 : MemStorage := { users := [facU], rooms := [roomA], bookings := [bCancelled], nextId := 30 }

/-- C4 (counterexample): the claim "cancelled is terminal: every attempt to
transition a cancelled booking via the update operation is rejected and its
status remains cancelled" is false. The update route checks only ownership
and the time refinement, not the stored status: the owner updates the
cancelled booking 20 with status pending, the request is accepted, and the
stored status becomes pending, not cancelled. -/
theorem c4_revive_counterexample :
    ((putBooking sC4 facU 20 { status := some Status.pending }).toOption.map
      (fun r => r.2.status) = some Status.pending) ∧ Status.pending ≠ Status.cancelled := by
  constructor <;> decide

/-- C4 (amended): the update operation enforces no status-transition guard:
for every booking that getBooking resolves (including a cancelled one), an
update by its owner or an admin that supplies a status and passes the time
refinement is accepted and stores exactly the supplied status. -/
theorem c4_no_transition_guard (s : MemStorage) (actor : User) (id : Nat) (u : BookingUpdate)
    (bd : BookingWithDetails) (st : Status)
    (hfind : s.getBooking id = some bd)
    (hauth : actor.role = Role.admin ∨ bd.booking.facultyId = actor.id)
    (hst : u.status = some st)
    (href : updateRefineOk u = true) :
    ∃ s' b', putBooking s actor id u = Except.ok (s', b') ∧ b'.status = st := by
  obtain ⟨hf, hr, hu0⟩ := getBooking_inv s id bd hfind
  have hnotIf : ¬(actor.role ≠ Role.admin ∧ bd.booking.facultyId ≠ actor.id) := by
    rcases hauth with h | h
    · exact fun hc => hc.1 h
    · exact fun hc => hc.2 h
  simp only [putBooking, hfind]
  rw [if_neg hnotIf, if_neg (by simp [href])]
  simp only [MemStorage.updateBooking, hf]
  refine ⟨_, _, rfl, ?_⟩
  split <;> simp [Booking.applyUpdate, hst]

theorem c4_no_transition_guard_witness :
    ∃ s' b', putBooking sC4 facU 20 { status := some Status.pending } = Except.ok (s', b') ∧
      b'.status = Status.pending :=
  c4_no_transition_guard sC4 facU 20 { status := some Status.pending }
    ⟨bCancelled, roomA, projectUser facU⟩ Status.pending (by decide) (Or.inr (by decide)) rfl rfl

/-- A store whose rooms already contain the name "Room A101". -/
def initC5 : MemStorage := { users := [adminU], rooms := [roomA], bookings := [], nextId := 50 }

/-- C5 (evaluation at the failing input): creating a room whose name equals
the name of a stored room does not fail: the admin request is accepted (no
ValidationError of any kind is raised), the new room is stored, and the
store then holds two rooms named "Room A101". This contradicts the claim
(and the unique() constraint the schema declares on rooms.name): neither the
route nor MemStorage.createRoom performs any uniqueness check. -/
theorem c5_duplicate_room_name :
    ((postRoom initC5 adminU { name := "Room A101", capacity := 30 }).toOption.map
      (fun r => (r.2.name, (r.1.rooms.filter (fun rm => decide (rm.name = "Room A101"))).length)))
      = some ("Room A101", 2) := by
  decide

/-- C6: a creation payload whose endTime is not strictly later than its
startTime (minutes since midnight) is rejected by the insert-schema
refinement with a validation error (HTTP 400); no booking is stored since
only the accepted branch writes. -/
theorem c6_reject_end_not_after_start (s : MemStorage) (actor : User) (p : RawBookingPayload)
    (hrole : actor.role = Role.faculty) (hle : p.endTime ≤ p.startTime) :
    postBooking s actor p = Except.error ApiError.validation := by
  simp only [postBooking]
  rw [if_neg (by simp [hrole]), if_pos (by omega)]

theorem c6_reject_end_not_after_start_witness :
    postBooking initC1 facU (payloadRoomA 540 540) = Except.error ApiError.validation :=
  c6_reject_end_not_after_start initC1 facU (payloadRoomA 540 540) rfl (by decide)

/-- C7: for every booking that getBooking resolves and every authorized
actor (admin or owner), DELETE /api/bookings/:id is accepted and stores the
same booking with status cancelled and every other field unchanged; every
other booking is unchanged, rooms and users are unchanged, and nothing is
removed from the store (the booking count is preserved and the cancelled
booking is still stored). -/
theorem c7_delete_marks_cancelled (s : MemStorage) (actor : User) (id : Nat)
    (bd : BookingWithDetails)
    (hfind : s.getBooking id = some bd)
    (hauth : actor.role = Role.admin ∨ bd.booking.facultyId = actor.id) :
    ∃ s', deleteBookingRoute s actor id = Except.ok s' ∧
      s'.bookings = s.bookings.map
        (fun x => if x.id = id then { bd.booking with status := Status.cancelled } else x) ∧
      s'.rooms = s.rooms ∧ s'.users = s.users ∧
      s'.bookings.length = s.bookings.length ∧
      { bd.booking with status := Status.cancelled } ∈ s'.bookings ∧
      ∀ x ∈ s.bookings, x.id ≠ id → x ∈ s'.bookings := by
  obtain ⟨hf, hr, hu0⟩ := getBooking_inv s id bd hfind
  have hid : bd.booking.id = id := by
    have := List.find?_some hf
    simpa using this
  have hmemb : bd.booking ∈ s.bookings := List.mem_of_find?_eq_some hf
  have hnotIf : ¬(actor.role ≠ Role.admin ∧ bd.booking.facultyId ≠ actor.id) := by
    rcases hauth with h | h
    · exact fun hc => hc.1 h
    · exact fun hc => hc.2 h
  simp only [deleteBookingRoute, hfind]
  rw [if_neg hnotIf]
  simp only [MemStorage.updateBooking, hf]
  have happ : bd.booking.applyUpdate { status := some Status.cancelled } =
      { bd.booking with status := Status.cancelled } := by
    simp [Booking.applyUpdate]
  refine ⟨_, rfl, ?_, rfl, rfl, ?_, ?_, ?_⟩
  · rw [happ]
  · simp [List.length_map]
  · refine List.mem_map.mpr ⟨bd.booking, hmemb, ?_⟩
    rw [if_pos hid, happ]
  · intro x hx hne
    refine List.mem_map.mpr ⟨x, hx, ?_⟩
    rw [if_neg hne]

theorem c7_delete_marks_cancelled_witness :
    ∃ s', deleteBookingRoute stateW facU 10 = Except.ok s' ∧
      s'.bookings = stateW.bookings.map
        (fun x => if x.id = 10 then { bookingW with status := Status.cancelled } else x) ∧
      s'.rooms = stateW.rooms ∧ s'.users = stateW.users ∧
      s'.bookings.length = stateW.bookings.length ∧
      { bookingW with status := Status.cancelled } ∈ s'.bookings ∧
      ∀ x ∈ stateW.bookings, x.id ≠ 10 → x ∈ s'.bookings :=
  c7_delete_marks_cancelled stateW facU 10 ⟨bookingW, roomA, projectUser facU⟩
    (by rfl) (Or.inr (by decide))

/-- A creation payload that supplies a facultyId (42) different from the id
of the acting faculty user (1). -/
def pC8 : RawBookingPayload :=
  { roomId := 3, facultyId := some 42, courseName := "CS101", date := 20240110,
    startTime := 700, endTime := 760 }

/-- The booking stored by the C8 witness creation. -/
def bC8 : Booking :=
  { id := 10, roomId := 3, facultyId := 1, courseName := "CS101", date := 20240110,
    startTime := 700, endTime := 760, expectedAttendance := none,
    specialRequirements := none, status := Status.pending }

/-- The store after the C8 witness creation. -/
def sC8 : MemStorage := { users := [facU], rooms := [roomA], bookings := [bC8], nextId := 11 }

/-- C8: the creation route overwrites the payload facultyId with the id of
the acting user before parsing, so the outcome never depends on the supplied
facultyId (a mismatch is never an error on that account) and every stored
booking carries the actor id as its facultyId. -/
theorem c8_faculty_id_forced (s : MemStorage) (actor : User) (p : RawBookingPayload) :
    postBooking s actor p = postBooking s actor { p with facultyId := some actor.id } ∧
      ∀ s' b, postBooking s actor p = Except.ok (s', b) → b.facultyId = actor.id := by
  constructor
  · rfl
  · intro s' b hok
    simp only [postBooking] at hok
    split at hok
    · exact absurd hok (by simp)
    split at hok
    · exact absurd hok (by simp)
    split at hok
    · exact absurd hok (by simp)
    · rw [Except.ok.injEq] at hok
      simp only [MemStorage.createBooking, Prod.mk.injEq] at hok
      obtain ⟨hs', hb⟩ := hok
      rw [← hb]

theorem c8_faculty_id_forced_witness :
    (postBooking initC1 facU pC8 = postBooking initC1 facU { pC8 with facultyId := some facU.id }) ∧
      bC8.facultyId = facU.id :=
  ⟨(c8_faculty_id_forced initC1 facU pC8).1,
    (c8_faculty_id_forced initC1 facU pC8).2 sC8 bC8 (by rfl)⟩

/-- Replace the stored password of the user with the given id. -/
def setPassword (s : MemStorage) (uid : Nat) (pw : String) : MemStorage :=
  { s with users := s.users.map (fun u => if u.id = uid then { u with password := pw } else u) }

theorem findUser_setPassword (s : MemStorage) (uid : Nat) (pw : String) (i : Nat) :
    findUser (setPassword s uid pw) i =
      (findUser s i).map (fun u => if u.id = uid then { u with password := pw } else u) := by
  unfold findUser setPassword
  dsimp only
  have hp : ((fun u => decide (u.id = i)) ∘
      fun (u : User) => if u.id = uid then { u with password := pw } else u)
      = fun (u : User) => decide (u.id = i) := by
    funext u
    by_cases h : u.id = uid <;> simp [h, Function.comp]
  rw [List.find?_map, hp]

theorem projectUser_setPassword (u : User) (uid : Nat) (pw : String) :
    projectUser (if u.id = uid then { u with password := pw } else u) = projectUser u := by
  split <;> rfl

theorem joinBooking_setPassword (s : MemStorage) (uid : Nat) (pw : String) (b : Booking) :
    joinBooking (setPassword s uid pw) b = joinBooking s b := by
  unfold joinBooking
  have hroom : findRoom (setPassword s uid pw) b.roomId = findRoom s b.roomId := rfl
  rw [hroom, findUser_setPassword]
  cases findRoom s b.roomId <;> cases hfu : findUser s b.facultyId <;>
    simp [projectUser_setPassword]

theorem getBookings_setPassword (s : MemStorage) (uid : Nat) (pw : String) (f : BookingFilters) :
    (setPassword s uid pw).getBookings f = s.getBookings f := by
  unfold MemStorage.getBookings
  have hb : (setPassword s uid pw).bookings = s.bookings := rfl
  rw [hb]
  have hj : joinBooking (setPassword s uid pw) = joinBooking s :=
    funext (joinBooking_setPassword s uid pw)
  rw [hj]

theorem getBooking_setPassword (s : MemStorage) (uid : Nat) (pw : String) (id : Nat) :
    (setPassword s uid pw).getBooking id = s.getBooking id := by
  unfold MemStorage.getBooking
  have hb : (setPassword s uid pw).bookings = s.bookings := rfl
  rw [hb]
  cases s.bookings.find? (fun b => decide (b.id = id)) with
  | none => rfl
  | some b => exact joinBooking_setPassword s uid pw b

/-- C9: every booking returned by getBookings carries, as its owning-user
data, exactly the id, name and email of a stored user (the reduced
FacultyProjection, which has no password field); moreover the outputs of
getBookings and getBooking are unchanged when any stored password is
replaced, so no credential information flows into the returned
projections. -/
theorem c9_credential_projection (s : MemStorage) (f : BookingFilters)
    (bd : BookingWithDetails) (hmem : bd ∈ s.getBookings f) (uid : Nat) (pw : String) :
    (∃ u ∈ s.users, u.id = bd.booking.facultyId ∧ bd.faculty = projectUser u) ∧
      (setPassword s uid pw).getBookings f = s.getBookings f ∧
      (∀ id, (setPassword s uid pw).getBooking id = s.getBooking id) := by
  refine ⟨?_, getBookings_setPassword s uid pw f, fun id => getBooking_setPassword s uid pw id⟩
  unfold MemStorage.getBookings at hmem
  rw [mem_sortBookings] at hmem
  obtain ⟨e, hemem, hj⟩ := List.mem_filterMap.mp hmem
  unfold joinBooking at hj
  cases hr : findRoom s e.roomId with
  | none => rw [hr] at hj; exact absurd hj (by simp)
  | some room =>
    cases hu : findUser s e.facultyId with
    | none => rw [hr, hu] at hj; exact absurd hj (by simp)
    | some u =>
      rw [hr, hu] at hj
      simp only [Option.some.injEq] at hj
      subst hj
      refine ⟨u, List.mem_of_find?_eq_some hu, ?_, rfl⟩
      have := List.find?_some hu
      simpa using this

theorem c9_credential_projection_witness :
    (∃ u ∈ stateW.users, u.id = bookingW.facultyId ∧
        (⟨bookingW, roomA, projectUser facU⟩ : BookingWithDetails).faculty = projectUser u) ∧
      (setPassword stateW facU.id "rotated").getBookings {} = stateW.getBookings {} ∧
      (setPassword stateW facU.id "rotated").getBooking 10 = stateW.getBooking 10 :=
  ⟨(c9_credential_projection stateW {} ⟨bookingW, roomA, projectUser facU⟩
      (by decide) facU.id "rotated").1,
    (c9_credential_projection stateW {} ⟨bookingW, roomA, projectUser facU⟩
      (by decide) facU.id "rotated").2.1,
    (c9_credential_projection stateW {} ⟨bookingW, roomA, projectUser facU⟩
      (by decide) facU.id "rotated").2.2 10⟩

/-- C10: a createBooking whose roomId references no stored room (or whose
facultyId references no stored user) still succeeds and stores the booking;
the stored dangling booking is dropped by the join of every getBookings
call (every result equals the result on the previous store) and getBooking
on its id returns the not-found signal, while the booking remains in the
underlying map. -/
theorem c10_dangling_booking (s : MemStorage) (ib : InsertBooking)
    (hd : findRoom s ib.roomId = none ∨ findUser s ib.facultyId = none) :
    (s.createBooking ib).2 ∈ (s.createBooking ib).1.bookings ∧
      (∀ f, (s.createBooking ib).1.getBookings f = s.getBookings f) ∧
      (s.createBooking ib).1.getBooking (s.createBooking ib).2.id = none := by
  have hjoin : joinBooking s (s.createBooking ib).2 = none := by
    unfold joinBooking
    rcases hd with h | h
    · rw [show findRoom s (s.createBooking ib).2.roomId = none from h]
    · rw [show findUser s (s.createBooking ib).2.facultyId = none from h]
      cases findRoom s (s.createBooking ib).2.roomId <;> rfl
  refine ⟨?_, ?_, ?_⟩
  · show (s.createBooking ib).2 ∈ (s.createBooking ib).2 :: s.bookings
    exact List.mem_cons_self _ _
  · intro f
    show sortBookings
        ((applyFilters f ((s.createBooking ib).2 :: s.bookings)).filterMap (joinBooking s)) =
      sortBookings ((applyFilters f s.bookings).filterMap (joinBooking s))
    rw [applyFilters_cons_eq]
    split
    · simp [List.filterMap_cons, hjoin]
    · rfl
  · have hfind : ((s.createBooking ib).2 :: s.bookings).find?
        (fun b => decide (b.id = (s.createBooking ib).2.id)) = some (s.createBooking ib).2 := by
      simp [List.find?_cons_of_pos]
    show (match ((s.createBooking ib).2 :: s.bookings).find?
        (fun b => decide (b.id = (s.createBooking ib).2.id)) with
      | none => none
      | some b => joinBooking (s.createBooking ib).1 b) = none
    rw [hfind]
    exact hjoin

/-- A dangling insert payload: roomId 99 matches no stored room of initC1. -/
def ibC10 : InsertBooking :=
  { roomId := 99, facultyId := 1, courseName := "CS101", date := 20240110,
    startTime := 540, endTime := 600 }

theorem c10_dangling_booking_witness :
    ((initC1.createBooking ibC10).2 ∈ (initC1.createBooking ibC10).1.bookings) ∧
      ((initC1.createBooking ibC10).1.getBookings {} = initC1.getBookings {}) ∧
      ((initC1.createBooking ibC10).1.getBooking (initC1.createBooking ibC10).2.id = none) :=
  ⟨(c10_dangling_booking initC1 ibC10 (Or.inl (by decide))).1,
    (c10_dangling_booking initC1 ibC10 (Or.inl (by decide))).2.1 {},
    (c10_dangling_booking initC1 ibC10 (Or.inl (by decide))).2.2⟩

end Scheduler
